import Mathlib

/-!
# Verification of the n9ml cognitive-quantum-field core and the GGML persona agent

Shallow embedding of the TypeScript sources

* `src/app/lib/n9ml/utils.ts` (`parsePath`, `optimizeQuantization`, `collapseQuantumField`),
* `src/app/lib/n9ml/cognitive-quantum-field.ts` (`remount` / `reinterpretTensor`),
* the `GGMLPersonaAgent` class (`spawnRepository`, `retrieveFromRAG`,
  `orientCognitiveModel`, `decideResponseStrategy`, `executeDecision`,
  `adaptSelfModel`, `updateRAGMemory`, `processIntent`, ...).

Modelling conventions:

* JavaScript strings are `List Char` (abbreviated `Str`); string methods
  (`split`, `includes`, `toLowerCase`, `startsWith`) are structural helpers
  defined below with the exact JS semantics.
* JavaScript numbers are modelled as exact rationals `ℚ` (integer-valued
  quantities such as complexity as `ℤ`, lengths/indices as `ℕ`).  All numeric
  literals appearing in the source are small and exactly representable in
  float64, so exact rational arithmetic agrees with the source except for the
  float32 store-rounding of tensor data, which is ~2^-24 and far below every
  tolerance stated in the spec.  Rational literals are written with `mkRat`
  and division inside definitions with `Rat.div` (both kernel-computable).
* `Math.sqrt` (used only by `cosineSimilarity`) is modelled as an oracle
  parameter `SqrtOracle`: any function that is nonnegative on nonnegative
  inputs and vanishes exactly at `0`.  Every theorem proved below holds for
  every such oracle, hence in particular for the real square root.
* `Math.random` / `Date.now` nondeterminism (embedding generation, ids,
  timestamps) is modelled by explicit oracle parameters (`JsEnv`).
* JavaScript `Map` objects are insertion-ordered association lists; `set` on
  an existing key replaces the value in place, otherwise appends; `delete`
  removes the key.
* Typed-array element stores (`Uint8Array`/`Uint16Array`) wrap the stored
  integer modulo 2^8 / 2^16 (ECMAScript `ToUint8`/`ToUint16`); this is made
  explicit with `Int.emod`.
* Exceptions (`throw new Error(...)`) are modelled with `Except JsError`.
-/

/-- JS strings as character lists. -/
abbrev Str := List Char

/-- JS `String.prototype.toLowerCase` (ASCII fragment, all the source uses). -/
def strLower (s : Str) : Str := s.map Char.toLower

/-- JS `hay.includes(needle)` / `hay.indexOf(needle) !== -1`:
substring occurrence (the empty needle always occurs). -/
def containsSub : Str → Str → Bool
  | [], needle => needle.isEmpty
  | h :: t, needle => needle.isPrefixOf (h :: t) || containsSub t needle

/-- Auxiliary splitter for `splitOnChar` carrying the current (reversed) chunk. -/
def splitOnCharAux (sep : Char) : Str → Str → List Str
  | [], acc => [acc.reverse]
  | c :: rest, acc =>
    if c = sep then acc.reverse :: splitOnCharAux sep rest []
    else splitOnCharAux sep rest (c :: acc)

/-- JS `s.split(sep)` for a one-character separator. -/
def splitOnChar (sep : Char) (s : Str) : List Str := splitOnCharAux sep s []

/-- Digit-printing helper (fuel-based so it is structurally recursive). -/
def natToStrAux : Nat → Nat → Str
  | 0, _ => []
  | fuel + 1, n =>
    if n < 10 then [Char.ofNat (48 + n)]
    else natToStrAux fuel (n / 10) ++ [Char.ofNat (48 + n % 10)]

/-- Decimal rendering of a natural number (JS template-literal interpolation). -/
def natToStr (n : Nat) : Str := natToStrAux (n + 1) n

/-- Decimal rendering of an integer. -/
def intToStr (i : Int) : Str :=
  if i < 0 then '-' :: natToStr i.natAbs else natToStr i.natAbs

/-- JS `Math.round`: round half toward positive infinity. -/
def jsRound (q : ℚ) : ℤ := ⌊q + mkRat 1 2⌋

/-! ## Insertion-ordered string-keyed maps (JS `Map`) -/

/-- `Map.prototype.get` (first, and with `setEntry`/`delEntry` discipline only,
occurrence of the key). -/
def lookupE {β : Type} : List (Str × β) → Str → Option β
  | [], _ => none
  | p :: ps, k => if p.1 = k then some p.2 else lookupE ps k

/-- `Map.prototype.set`: replace in place if the key is present, else append. -/
def setEntry {β : Type} (m : List (Str × β)) (k : Str) (v : β) : List (Str × β) :=
  if m.any (fun p => decide (p.1 = k)) then
    m.map (fun p => if p.1 = k then (k, v) else p)
  else m ++ [(k, v)]

/-- `Map.prototype.delete` (removes every binding of the key; with the
`setEntry` discipline keys are unique, so this agrees with JS `Map`). -/
def delEntry {β : Type} (m : List (Str × β)) (k : Str) : List (Str × β) :=
  m.filter (fun p => !decide (p.1 = k))

/-! ## n9ml data model (src/app/lib/n9ml/types.ts) -/

/-- `CognitiveIntent.precision`. -/
inductive Precision | high | medium | low
deriving DecidableEq, Repr

/-- `QuantizationStrategy.method`. -/
inductive QuantMethod | linear | dynamic | adaptive
deriving DecidableEq, Repr

/-- `interface CognitiveIntent`. -/
structure CognitiveIntent where
  domain : Str
  task : Str
  precision : Precision
  realtime : Bool
  complexity : ℤ
deriving DecidableEq, Repr

/-- `interface QuantizationStrategy` (`bits` is 8, 16 or 32). -/
structure QuantizationStrategy where
  bits : ℕ
  method : QuantMethod
  preserveAccuracy : Bool
deriving DecidableEq, Repr

/-- `Architecture.type`. -/
inductive ArchType | transformer | cnn | rnn | hybrid
deriving DecidableEq, Repr

/-- `Architecture.optimization`. -/
inductive OptGoal | speed | memory | accuracy
deriving DecidableEq, Repr

/-- `interface Architecture`. -/
structure Architecture where
  type : ArchType
  layers : ℤ
  parameters : ℤ
  optimization : OptGoal
deriving DecidableEq, Repr

/-- Tagged numeric buffer of a tensor: `Float32Array`, `Uint8Array` or
`Uint16Array` (the `dtype` field of the source is the tag). -/
inductive TData
  | f32 (xs : List ℚ)
  | u8 (xs : List ℤ)
  | u16 (xs : List ℤ)
deriving DecidableEq, Repr

/-- The `dtype` discriminator of a buffer, as the source's string literal. -/
def TData.dtypeName : TData → Str
  | .f32 _ => "float32".data
  | .u8 _ => "uint8".data
  | .u16 _ => "uint16".data

/-- `dtype === 'float32'`. -/
def TData.isF32 : TData → Bool
  | .f32 _ => true
  | _ => false

/-- `dtype === 'uint8'`. -/
def TData.isU8 : TData → Bool
  | .u8 _ => true
  | _ => false

/-- `dtype === 'uint16'`. -/
def TData.isU16 : TData → Bool
  | .u16 _ => true
  | _ => false

/-- `interface Tensor`. -/
structure Tensor where
  id : Str
  data : TData
  shape : List ℕ
  architecture : Architecture
  quantization : QuantizationStrategy
deriving DecidableEq, Repr

/-- Errors thrown by the core (`throw new Error(...)`). -/
inductive JsError
  | invalidPath
  | recursionLimit (depth : ℚ)
deriving DecidableEq, Repr

/-! ## src/app/lib/n9ml/utils.ts -/

/-- `parsePath` (utils.ts:9-55): split on `/`, drop empty segments, fail below
two segments, optionally skip a `models`/`inference` namespace prefix, then
derive precision, realtime and clamped complexity from keywords. -/
def parsePath (path : Str) : Except JsError CognitiveIntent :=
  let parts := (splitOnChar '/' path).filter (fun s => !s.isEmpty)
  if parts.length < 2 then .error .invalidPath
  else
    let skip : Bool := decide (3 ≤ parts.length) &&
      (decide (parts.headD [] = "models".data) || decide (parts.headD [] = "inference".data))
    let domain := if skip then parts.getD 1 [] else parts.getD 0 []
    let task := if skip then parts.getD 2 [] else parts.getD 1 []
    let modifiers := if skip then parts.drop 3 else parts.drop 2
    let precision : Precision :=
      if containsSub task "precise".data || modifiers.contains "precise".data
          || modifiers.contains "high".data then .high
      else if containsSub task "fast".data || modifiers.contains "fast".data
          || modifiers.contains "low".data then .low
      else .medium
    let realtime : Bool :=
      containsSub task "realtime".data || modifiers.contains "realtime".data
        || containsSub task "live".data
    let complexity : ℤ :=
      (5 + (if domain = "vision".data then 2 else 0)
         + (if domain = "nlp".data then 3 else 0)
         + (if containsSub task "generation".data then 2 else 0)
         + (if precision = .high then 2 else 0)
         + (if realtime then -1 else 0))
    .ok { domain, task, precision, realtime, complexity := max 1 (min 10 complexity) }

/-- `optimizeQuantization` (utils.ts:60-82): precision picks the default
(32/adaptive for high, 8/linear/no-accuracy for low-or-realtime, else
16/dynamic), then the vision+realtime override forces 8/linear, leaving
`preserveAccuracy` untouched. -/
def optimizeQuantization (intent : CognitiveIntent) : QuantizationStrategy :=
  let d : ℕ × QuantMethod × Bool :=
    if intent.precision = .high then (32, .adaptive, true)
    else if intent.precision = .low ∨ intent.realtime = true then (8, .linear, false)
    else (16, .dynamic, true)
  if intent.domain = "vision".data ∧ intent.realtime = true then
    { bits := 8, method := .linear, preserveAccuracy := d.2.2 }
  else
    { bits := d.1, method := d.2.1, preserveAccuracy := d.2.2 }

/-- `collapseQuantumField` (utils.ts:87-119). `layers = max(2, floor(1.5·c))`
is `max 2 ((3·c).fdiv 2)`; `parameters = floor(2^(c+10))` with `c ≥ 1` after
`parsePath`'s clamp, so it is the exact power `2^(c+10)`. -/
def collapseQuantumField (intent : CognitiveIntent) (quant : QuantizationStrategy) :
    Architecture :=
  let type : ArchType :=
    if intent.domain = "vision".data then .cnn
    else if intent.domain = "sequence".data ∨ containsSub intent.task "time".data then .rnn
    else if intent.domain = "nlp".data then .transformer
    else if 7 < intent.complexity ∧ intent.domain = "multimodal".data then .hybrid
    else .transformer
  let optimization : OptGoal :=
    if intent.realtime = true ∨ quant.bits = 8 then .speed
    else if quant.bits = 16 then .memory
    else .accuracy
  { type
    layers := max 2 ((3 * intent.complexity).fdiv 2)
    parameters := 2 ^ (intent.complexity + 10).toNat
    optimization }

/-! ## src/app/lib/n9ml/cognitive-quantum-field.ts -/

/-- `reinterpretTensor` (cognitive-quantum-field.ts:152-214): element-wise
dtype conversion of the source buffer.  Stores into `Uint8Array`/`Uint16Array`
wrap modulo 2^8/2^16 (ECMAScript `ToUint8`/`ToUint16`); the source performs no
clamping. -/
def reinterpretTensor (now : ℕ) (t : Tensor) (newArch : Architecture)
    (newQuant : QuantizationStrategy) : Tensor :=
  let newData : TData :=
    if newQuant.bits = 32 ∧ t.data.isF32 = false then
      match t.data with
      | .u16 xs => .f32 (xs.map (fun v => Rat.div (Int.cast v) 65535))
      | .u8 xs => .f32 (xs.map (fun v => Rat.div (Int.cast v) 255))
      | .f32 xs => .f32 xs
    else if newQuant.bits = 16 ∧ t.data.isU16 = false then
      match t.data with
      | .f32 xs => .u16 (xs.map (fun x => (jsRound (x * 65535)).emod 65536))
      | .u8 xs => .u16 (xs.map (fun v => (v * 257).emod 65536))
      | .u16 xs => .u16 xs
    else if newQuant.bits = 8 ∧ t.data.isU8 = false then
      match t.data with
      | .f32 xs => .u8 (xs.map (fun x => (jsRound (x * 255)).emod 256))
      | .u16 xs => .u8 (xs.map (fun v => (jsRound (Rat.div (Int.cast v) 257)).emod 256))
      | .u8 xs => .u8 xs
    else t.data
  { id := "reinterpreted_".data ++ t.id ++ "_".data ++ natToStr now
    data := newData
    shape := t.shape
    architecture := newArch
    quantization := newQuant }

/-- The mount table of a `CognitiveQuantumField`. -/
structure FieldState where
  mountedTensors : List (Str × Tensor)
deriving DecidableEq, Repr

/-- `remount` (cognitive-quantum-field.ts:43-53): re-derive intent,
quantization and architecture from the new path, reinterpret the data, and
register the fresh tensor under the new path. -/
def remount (now : ℕ) (fs : FieldState) (t : Tensor) (newPath : Str) :
    Except JsError (Tensor × FieldState) :=
  match parsePath newPath with
  | .error e => .error e
  | .ok newIntent =>
    let newQuant := optimizeQuantization newIntent
    let newArch := collapseQuantumField newIntent newQuant
    let t' := reinterpretTensor now t newArch newQuant
    .ok (t', { mountedTensors := setEntry fs.mountedTensors newPath t' })

/-! ## GGMLPersonaAgent data model (persona-agent source) -/

/-- Embedding vectors (`Float32Array` of synthetic random values). -/
abbrev Emb := List ℚ

/-- `interface PersonaTraits`. -/
structure PersonaTraits where
  creativity : ℚ
  precision : ℚ
  recursionDepth : ℚ
  adaptationRate : ℚ
  boltIntegration : Bool
deriving DecidableEq, Repr

/-- `interface RAGMemoryState`. -/
structure RAGMemoryState where
  embeddings : List (Str × Emb)
  contextWindow : List Str
  semanticGraph : List (Str × List Str)
  retrievalThreshold : ℚ
deriving DecidableEq, Repr

/-- `RepoSpawnRequest.architecture`. -/
inductive ArchTag | frontend | backend | fullstack | aiAgent
deriving DecidableEq, Repr

/-- `interface RepoSpawnRequest`. -/
structure RepoSpawnRequest where
  intent : Str
  technologies : List Str
  architecture : ArchTag
  parentRepo : Option Str
  recursionLevel : ℚ
deriving DecidableEq, Repr

/-- The mutable state of a `GGMLPersonaAgent` that the claims are about:
persona traits, the RAG memory store, the spawned-repo registry and the
quantum field's mount table.  (The OODA scratch fields and the persona/self
tensors only hold diagnostic copies and are not referenced by any claim.) -/
structure AgentState where
  traits : PersonaTraits
  ragMemory : RAGMemoryState
  spawnedRepos : List (Str × RepoSpawnRequest)
  mountedTensors : List (Str × Tensor)
deriving DecidableEq, Repr

/-- Oracle for the nondeterminism of the source: `generateEmbedding`
(random 384-vectors), `Date.now()` and the random id suffix. -/
structure JsEnv where
  gen : Str → Emb
  now : ℕ
  rand : Str

/-- `spawnRepository` (agent source lines 119-143): reject at or beyond the
recursion ceiling *before any mutation*; otherwise create the repo id,
the Bolt artifact (pure data, no state), the RAG extension
(`createRAGExtension`, lines 408-426: embedding under `repo:<id>` plus a
semantic-graph entry), register the request, and record the self-model spawn
embedding (`updateSelfModelFromSpawning`, lines 705-709). -/
def spawnRepository (env : JsEnv) (σ : AgentState) (req : RepoSpawnRequest) :
    Except JsError Str × AgentState :=
  if σ.traits.recursionDepth ≤ req.recursionLevel then
    (.error (.recursionLimit σ.traits.recursionDepth), σ)
  else
    let repoId := "repo_".data ++ natToStr env.now ++ "_".data ++ env.rand
    let contextEmbedding := env.gen req.intent
    let ram := σ.ragMemory
    let ram := { ram with
      embeddings := setEntry ram.embeddings ("repo:".data ++ repoId) contextEmbedding
      semanticGraph := setEntry ram.semanticGraph repoId [req.intent] }
    let spawnEmbedding :=
      env.gen ("spawned:".data ++ repoId ++ ":".data ++ req.intent)
    let ram := { ram with
      embeddings := setEntry ram.embeddings
        ("self-model:spawn:".data ++ repoId) spawnEmbedding }
    (.ok repoId,
      { σ with ragMemory := ram, spawnedRepos := setEntry σ.spawnedRepos repoId req })

/-! ## Orient phase (agent source lines 269-295) -/

/-- The insertion loop of `orientCognitiveModel`: for each context item store
its embedding under the item and push the item onto the context window. -/
def orientPushed (gen : Str → Emb) (ram : RAGMemoryState) (context : List Str) :
    RAGMemoryState :=
  context.foldl
    (fun r item =>
      { r with
        embeddings := setEntry r.embeddings item (gen item)
        contextWindow := r.contextWindow ++ [item] })
    ram

/-- The keys evicted by one Orient step: when the pushed window exceeds 100,
the oldest `length − 50` entries (`splice(0, length - 50)`), otherwise none. -/
def evictedKeys (gen : Str → Emb) (ram : RAGMemoryState) (context : List Str) :
    List Str :=
  let r := orientPushed gen ram context
  if 100 < r.contextWindow.length then
    r.contextWindow.take (r.contextWindow.length - 50)
  else []

/-- The memory-store effect of `orientCognitiveModel` (lines 281-295): insert
every context item, then if the window exceeds 100 entries splice off the
oldest `length − 50` items and delete their embeddings in the same step. -/
def orientMemory (gen : Str → Emb) (ram : RAGMemoryState) (context : List Str) :
    RAGMemoryState :=
  let r := orientPushed gen ram context
  if 100 < r.contextWindow.length then
    let removeCount := r.contextWindow.length - 50
    let removed := r.contextWindow.take removeCount
    { r with
      contextWindow := r.contextWindow.drop removeCount
      embeddings := removed.foldl (fun e k => delEntry e k) r.embeddings }
  else r

/-! ## RAG retrieval (agent source lines 148-174, 438-456) -/

/-- `Math.sqrt` as an oracle: any function that is nonnegative on nonnegative
inputs and vanishes exactly at zero.  Every theorem below holds for every such
oracle, in particular for the real square root. -/
structure SqrtOracle where
  f : ℚ → ℚ
  nonneg : ∀ x, 0 ≤ x → 0 ≤ f x
  zero_iff : ∀ x, 0 ≤ x → (f x = 0 ↔ x = 0)

/-- A computable instance of `SqrtOracle` used to state closed facts (the
statements proved below do not depend on the numeric value of the root). -/
def sqrtStub : SqrtOracle where
  f := fun x => if x ≤ 0 then 0 else 1
  nonneg := by intro x _; dsimp only; split <;> norm_num
  zero_iff := by
    intro x hx
    dsimp only
    constructor
    · intro h
      by_contra hne
      rw [if_neg (by rcases lt_or_eq_of_le hx with h' | h'
                     · exact not_le.mpr h'
                     · exact absurd h'.symm hne)] at h
      exact one_ne_zero h
    · intro h; simp [h]

/-- `cosineSimilarity` (lines 438-450): the loop runs over the indices of `a`;
an out-of-range read of `b` poisons the result to `NaN` (`none`).  The result
is `dot / (sqrt(normA) * sqrt(normB))`; a zero denominator means `0 / 0`,
which is JavaScript `NaN`, modelled as `none` (when the denominator vanishes
the dot product vanishes too, see `cosineSimilarity_denom_zero`). -/
def cosineSimilarity (sq : SqrtOracle) (a b : Emb) : Option ℚ :=
  if a.length ≤ b.length then
    let dot := ((a.zip b).map (fun p => p.1 * p.2)).sum
    let normA := (a.map (fun x => x * x)).sum
    let normB := ((b.take a.length).map (fun x => x * x)).sum
    let denom := sq.f normA * sq.f normB
    if denom = 0 then none else some (Rat.div dot denom)
  else none

/-- `getEmbeddingSource` (lines 452-456). -/
def getEmbeddingSource (key : Str) : Str :=
  if "repo:".data.isPrefixOf key then "spawned-repository".data
  else if "context:".data.isPrefixOf key then "conversation-context".data
  else "memory-kernel".data

/-- One element of `retrieveFromRAG`'s result list. -/
structure RAGResult where
  content : Str
  relevance : ℚ
  source : Str
deriving DecidableEq, Repr

/-- Insert into a list sorted by descending relevance. -/
def insertDesc (a : RAGResult) : List RAGResult → List RAGResult
  | [] => [a]
  | b :: bs => if b.relevance ≤ a.relevance then a :: b :: bs else b :: insertDesc a bs

/-- `results.sort((a, b) => b.relevance - a.relevance)`: a sort of the result
list by descending relevance (insertion sort; the claims only depend on the
output being a by-relevance-descending permutation of the input, which any
correct `Array.prototype.sort` comparator run also satisfies). -/
def sortDesc : List RAGResult → List RAGResult
  | [] => []
  | a :: as => insertDesc a (sortDesc as)

/-- `retrieveFromRAG` (lines 148-174): embed the query, keep every stored
entry whose cosine similarity strictly exceeds `retrievalThreshold`
(`NaN` comparisons are false, so `none` similarities are dropped), sort by
descending relevance and truncate to `maxResults`.  Returns the result list
and the query embedding. -/
def retrieveFromRAG (sq : SqrtOracle) (env : JsEnv) (ram : RAGMemoryState)
    (query : Str) (maxResults : ℕ) : List RAGResult × Emb :=
  let queryEmbedding := env.gen query
  let results := ram.embeddings.foldl
    (fun acc p =>
      match cosineSimilarity sq queryEmbedding p.2 with
      | some s =>
        if ram.retrievalThreshold < s then
          acc ++ [{ content := p.1, relevance := s, source := getEmbeddingSource p.1 }]
        else acc
      | none => acc)
    []
  ((sortDesc results).take maxResults, queryEmbedding)

/-! ## Decide phase (agent source lines 297-329, 458-476) -/

/-- `inferTechnologies` (lines 458-469). -/
def inferTechnologies (intent : CognitiveIntent) : List Str :=
  ["typescript".data, "node.js".data]
    ++ (if intent.domain = "development".data then ["react".data, "vite".data] else [])
    ++ (if intent.domain = "ai".data
        then ["python".data, "pytorch".data, "transformers".data] else [])

/-- `inferArchitecture` (lines 471-476). -/
def inferArchitecture (intent : CognitiveIntent) : ArchTag :=
  if intent.domain = "ai".data then .aiAgent
  else if 7 < intent.complexity then .fullstack
  else if containsSub intent.task "api".data || containsSub intent.task "server".data
    then .backend
  else .frontend

/-- The decision record built by `decideResponseStrategy` (the `timestamp`
field of the source is diagnostic only and not referenced by any claim). -/
structure Decision where
  shouldSpawnRepo : Bool
  spawnRequests : List RepoSpawnRequest
  responseType : Str
  complexity : ℤ
deriving DecidableEq, Repr

/-- `decideResponseStrategy` (lines 297-329): spawn iff `boltIntegration` and
(`task === 'creation'` or `domain === 'development'`) and `complexity > 6`;
when so, push exactly one `RepoSpawnRequest` with `recursionLevel = 0`. -/
def decideResponseStrategy (traits : PersonaTraits) (ci : CognitiveIntent) :
    Decision :=
  if traits.boltIntegration = true ∧
      (ci.task = "creation".data ∨ ci.domain = "development".data) ∧
      6 < ci.complexity then
    { shouldSpawnRepo := true
      spawnRequests :=
        [{ intent := "Create repository for ".data ++ ci.domain ++ " ".data ++ ci.task
           technologies := inferTechnologies ci
           architecture := inferArchitecture ci
           parentRepo := none
           recursionLevel := 0 }]
      responseType := "repo-spawn".data
      complexity := ci.complexity }
  else
    { shouldSpawnRepo := false, spawnRequests := []
      responseType := "direct".data, complexity := ci.complexity }

/-! ## Observe / Act / Adapt phases and `processIntent` -/

/-- `parseIntentToCognitive` (agent source lines 237-267): keyword heuristic
over the lowercased request; the four `if`s run sequentially, so a later
match overwrites `task`/`domain` and the complexity deltas accumulate. -/
def parseIntentToCognitive (intent : Str) : CognitiveIntent :=
  let lower := strLower intent
  let c1 := containsSub lower "create".data || containsSub lower "build".data
  let c2 := containsSub lower "analyze".data || containsSub lower "understand".data
  let c3 := containsSub lower "app".data || containsSub lower "website".data
  let c4 := containsSub lower "ai".data || containsSub lower "machine learning".data
  { domain := if c4 then "ai".data else if c3 then "development".data else "general".data
    task := if c2 then "analysis".data else if c1 then "creation".data else "respond".data
    precision := if c2 then .high else .medium
    realtime := false
    complexity := 5 + (if c1 then 2 else 0) + (if c2 then 1 else 0)
      + (if c3 then 2 else 0) + (if c4 then 3 else 0) }

/-- The Orient phase on the whole agent state (only `ragMemory` changes). -/
def orientAgent (env : JsEnv) (σ : AgentState) (context : List Str) : AgentState :=
  { σ with ragMemory := orientMemory env.gen σ.ragMemory context }

/-- `generateDirectResponse` (lines 711-729). -/
def generateDirectResponse (traits : PersonaTraits) (d : Decision) : Str :=
  "I understand your request. ".data
    ++ (if mkRat 7 10 < traits.creativity
        then "Let me explore some creative possibilities for this. ".data else [])
    ++ (if mkRat 7 10 < traits.precision
        then "I'll provide a detailed and accurate solution. ".data else [])
    ++ "Based on my cognitive analysis (complexity: ".data ++ intToStr d.complexity
    ++ "), here's my response...".data

/-- `updateRAGMemory` (lines 731-748): a truthy (non-empty) response text is
embedded and stored under `execution:<timestamp>`. -/
def updateRAGMemory (env : JsEnv) (ram : RAGMemoryState) (response : Str) :
    RAGMemoryState :=
  if response.isEmpty then ram
  else { ram with
    embeddings := setEntry ram.embeddings
      ("execution:".data ++ natToStr env.now) (env.gen response) }

/-- The spawning loop of `executeDecision` (lines 341-347): spawn each request
in order, appending a confirmation line per spawn; an exception aborts the
loop and propagates. -/
def spawnAll (env : JsEnv) :
    AgentState → Str → List RepoSpawnRequest → Except JsError (Str × AgentState)
  | σ, resp, [] => .ok (resp, σ)
  | σ, resp, r :: rs =>
    match spawnRepository env σ r with
    | (.error e, _) => .error e
    | (.ok repoId, σ') =>
      spawnAll env σ' (resp ++ "\nSpawned repository: ".data ++ repoId) rs

/-- `executeDecision` (lines 331-358): spawn or answer directly, then record
the execution result in RAG memory. -/
def executeDecision (env : JsEnv) (σ : AgentState) (d : Decision) :
    Except JsError (Str × AgentState) :=
  if d.shouldSpawnRepo = true then
    match spawnAll env σ [] d.spawnRequests with
    | .error e => .error e
    | .ok (resp, σ') =>
      .ok (resp, { σ' with ragMemory := updateRAGMemory env σ'.ragMemory resp })
  else
    let resp := generateDirectResponse σ.traits d
    .ok (resp, { σ with ragMemory := updateRAGMemory env σ.ragMemory resp })

/-- The fixed record returned by `analyzeResultSuccess` (lines 750-758). -/
structure SuccessMetrics where
  overallSuccess : ℚ
  responseQuality : ℚ
  executionTime : ℚ
  resourceUsage : ℚ
deriving DecidableEq, Repr

/-- `analyzeResultSuccess` (lines 750-758): constant synthetic metrics. -/
def analyzeResultSuccess : SuccessMetrics :=
  { overallSuccess := mkRat 85 100, responseQuality := mkRat 9 10,
    executionTime := 150, resourceUsage := mkRat 3 10 }

/-- `evolveTraitsFromFailure` (lines 760-771). -/
def evolveTraitsFromFailure (m : SuccessMetrics) (t : PersonaTraits) :
    PersonaTraits :=
  if m.responseQuality < mkRat 6 10
  then { t with precision := min 1 (t.precision * mkRat 115 100) }
  else t

/-- `adaptSelfModel` (lines 360-385): multiply `adaptationRate` by 1.1 when
the synthetic overall success exceeds 0.8, else by 1.2 followed by the
failure-driven trait evolution.  (`analyzeResultSuccess` is constant 0.85, so
the 1.1 branch is always taken.) -/
def adaptSelfModel (σ : AgentState) : AgentState :=
  let m := analyzeResultSuccess
  if mkRat 8 10 < m.overallSuccess then
    { σ with traits.adaptationRate := σ.traits.adaptationRate * mkRat 11 10 }
  else
    let σ' := { σ with traits.adaptationRate := σ.traits.adaptationRate * mkRat 12 10 }
    { σ' with traits := evolveTraitsFromFailure m σ'.traits }

/-- The fixed record returned by `analyzePerformance` (lines 650-659). -/
structure PerfMetrics where
  successRate : ℚ
  responseTime : ℚ
  userSatisfaction : ℚ
  repoSpawnSuccess : ℚ
  memoryRetrieval : ℚ
deriving DecidableEq, Repr

/-- `evolveTraits` (lines 678-695, reached only from
`performSelfModification`): bumps `creativity`/`precision` with a `min 1`
clamp and never touches `adaptationRate`. -/
def evolveTraits (perf : PerfMetrics) (t : PersonaTraits) : PersonaTraits :=
  let t1 :=
    if mkRat 9 10 < perf.repoSpawnSuccess
    then { t with creativity := min 1 (t.creativity * mkRat 105 100) } else t
  if 500 < perf.responseTime
  then { t1 with precision := min 1 (t1.precision * mkRat 11 10) } else t1

/-- `processIntent` (lines 85-113): Observe, Orient, Decide, Act, Adapt.
An exception from `spawnRepository` propagates out of the whole call (the
source has no catch); claims only constrain completed calls. -/
def processIntent (env : JsEnv) (σ : AgentState) (intent : Str)
    (context : List Str) : Except JsError (Str × AgentState) :=
  let ci := parseIntentToCognitive intent
  let σ1 := orientAgent env σ context
  let d := decideResponseStrategy σ1.traits ci
  match executeDecision env σ1 d with
  | .error e => .error e
  | .ok (resp, σ2) => .ok (resp, adaptSelfModel σ2)

/-- Environment oracle for the concrete C9 runs. -/
def c9Env : JsEnv := { gen := fun _ => [1], now := 0, rand := "r".data }

/-- Concrete agent start state (rate 1, boltIntegration off) for the C9 run. -/
def c9Start : AgentState :=
  { traits := { creativity := mkRat 8 10, precision := mkRat 9 10,
                recursionDepth := 3, adaptationRate := 1, boltIntegration := false },
    ragMemory := { embeddings := [], contextWindow := [], semanticGraph := [],
                   retrievalThreshold := mkRat 7 10 },
    spawnedRepos := [], mountedTensors := [] }

/-- The state after the C9 run: rate 11/10, execution embedding recorded. -/
def c9Final : AgentState :=
  { traits := { creativity := mkRat 8 10, precision := mkRat 9 10,
                recursionDepth := 3, adaptationRate := mkRat 11 10,
                boltIntegration := false },
    ragMemory := { embeddings := [("execution:0".data, [1])],
                   contextWindow := [], semanticGraph := [],
                   retrievalThreshold := mkRat 7 10 },
    spawnedRepos := [], mountedTensors := [] }

/-- The direct response text produced by the C9 run. -/
def c9Resp : Str :=
  "I understand your request. Let me explore some creative possibilities for this. I'll provide a detailed and accurate solution. Based on my cognitive analysis (complexity: 5), here's my response...".data

/-- The C9 start state with `adaptationRate = 0`. -/
def c9ZeroStart : AgentState :=
  { traits := { creativity := mkRat 8 10, precision := mkRat 9 10,
                recursionDepth := 3, adaptationRate := 0, boltIntegration := false },
    ragMemory := { embeddings := [], contextWindow := [], semanticGraph := [],
                   retrievalThreshold := mkRat 7 10 },
    spawnedRepos := [], mountedTensors := [] }

/-- The state after the rate-0 C9 run: the rate is still 0. -/
def c9ZeroFinal : AgentState :=
  { traits := { creativity := mkRat 8 10, precision := mkRat 9 10,
                recursionDepth := 3, adaptationRate := 0, boltIntegration := false },
    ragMemory := { embeddings := [("execution:0".data, [1])],
                   contextWindow := [], semanticGraph := [],
                   retrievalThreshold := mkRat 7 10 },
    spawnedRepos := [], mountedTensors := [] }

/-! ## Claim C1: optimizeQuantization under high precision -/

/-- Counterexample to C1 as stated: with `precision = high`, `domain =
"vision"` and `realtime = true`, the domain-specific override (utils.ts:76-79)
forces `bits = 8` and `method = linear`, so the result is not
`{32, adaptive, true}`. -/
theorem optimizeQuantization_high_vision_realtime_counterexample :
    optimizeQuantization
        { domain := "vision".data, task := "realtime".data, precision := .high,
          realtime := true, complexity := 7 }
      ≠ { bits := 32, method := .adaptive, preserveAccuracy := true } := by
  decide

/-- C1 (amended): for every intent with `precision = high` that is not in the
single overridden case `domain = "vision" ∧ realtime`, `optimizeQuantization`
returns exactly `{bits := 32, method := adaptive, preserveAccuracy := true}`.
(In the overridden case it returns `{8, linear, true}` instead.) -/
theorem optimizeQuantization_high (i : CognitiveIntent)
    (hp : i.precision = .high)
    (hv : ¬ (i.domain = "vision".data ∧ i.realtime = true)) :
    optimizeQuantization i =
      { bits := 32, method := .adaptive, preserveAccuracy := true } := by
  simp [optimizeQuantization, hp, hv]

/-- Witness for `optimizeQuantization_high` at the NLP/precise intent. -/
theorem optimizeQuantization_high_witness :
    optimizeQuantization
        { domain := "nlp".data, task := "precise".data, precision := .high,
          realtime := false, complexity := 9 }
      = { bits := 32, method := .adaptive, preserveAccuracy := true } :=
  optimizeQuantization_high _ (by decide) (by decide)

/-! ## Claim C2: atomic rejection at the recursion ceiling -/

/-- C2: a spawn request whose `recursionLevel` is at or beyond
`traits.recursionDepth` fails with the recursion-limit error and leaves the
whole agent state — registry, RAG memory (embeddings, context window,
semantic graph), mount table — exactly unchanged: the guard is the first
statement of `spawnRepository`, before any mutation. -/
theorem spawnRepository_atLimit_rejects (env : JsEnv) (σ : AgentState)
    (req : RepoSpawnRequest) (h : σ.traits.recursionDepth ≤ req.recursionLevel) :
    spawnRepository env σ req =
      (.error (.recursionLimit σ.traits.recursionDepth), σ) := by
  simp [spawnRepository, h]

/-- Witness for `spawnRepository_atLimit_rejects`: depth 3, level 3. -/
theorem spawnRepository_atLimit_rejects_witness :
    spawnRepository
        { gen := fun _ => [1], now := 0, rand := "x".data }
        { traits := { creativity := mkRat 8 10, precision := mkRat 9 10,
                      recursionDepth := 3, adaptationRate := mkRat 1 10,
                      boltIntegration := true },
          ragMemory := { embeddings := [("k".data, [1])],
                         contextWindow := ["k".data],
                         semanticGraph := [], retrievalThreshold := mkRat 7 10 },
          spawnedRepos := [], mountedTensors := [] }
        { intent := "i".data, technologies := [], architecture := .frontend,
          parentRepo := none, recursionLevel := 3 } =
      (.error (.recursionLimit 3),
        { traits := { creativity := mkRat 8 10, precision := mkRat 9 10,
                      recursionDepth := 3, adaptationRate := mkRat 1 10,
                      boltIntegration := true },
          ragMemory := { embeddings := [("k".data, [1])],
                         contextWindow := ["k".data],
                         semanticGraph := [], retrievalThreshold := mkRat 7 10 },
          spawnedRepos := [], mountedTensors := [] }) :=
  spawnRepository_atLimit_rejects _ _ _ (by decide)

/-! ## Claim C3: bounded context window -/

theorem lookupE_delEntry {β : Type} (m : List (Str × β)) (j k : Str) :
    lookupE (delEntry m j) k = if k = j then none else lookupE m k := by
  induction m with
  | nil => by_cases h : k = j <;> simp [delEntry, lookupE, h]
  | cons p ps ih =>
    have hstep : delEntry (p :: ps) j =
        if p.1 = j then delEntry ps j else p :: delEntry ps j := by
      by_cases hpj : p.1 = j <;> simp [delEntry, List.filter_cons, hpj]
    rw [hstep]
    by_cases hpj : p.1 = j
    · rw [if_pos hpj, ih]
      by_cases hkj : k = j
      · simp [hkj]
      · have hpk : ¬ p.1 = k := fun h => hkj (by rw [← h, hpj])
        simp [hkj, lookupE, hpk]
    · rw [if_neg hpj]
      by_cases hpk : p.1 = k
      · have hkj : ¬ k = j := fun h => hpj (by rw [hpk, h])
        simp [lookupE, hpk, hkj]
      · simp [lookupE, hpk, ih]

theorem lookupE_foldl_delEntry_none {β : Type} (l : List Str)
    (m : List (Str × β)) (k : Str) (h : lookupE m k = none) :
    lookupE (l.foldl (fun e j => delEntry e j) m) k = none := by
  induction l generalizing m with
  | nil => simpa
  | cons j js ih =>
    refine ih _ ?_
    rw [lookupE_delEntry]
    split <;> simp [h]

theorem lookupE_foldl_delEntry_mem {β : Type} (l : List Str)
    (m : List (Str × β)) (k : Str) (h : k ∈ l) :
    lookupE (l.foldl (fun e j => delEntry e j) m) k = none := by
  induction l generalizing m with
  | nil => cases h
  | cons j js ih =>
    rcases List.mem_cons.mp h with rfl | hmem
    · exact lookupE_foldl_delEntry_none js _ _ (by rw [lookupE_delEntry]; simp)
    · exact ih _ hmem

/-- The insertion loop only appends to the context window. -/
theorem orientPushed_contextWindow (gen : Str → Emb) (ram : RAGMemoryState)
    (context : List Str) :
    (orientPushed gen ram context).contextWindow = ram.contextWindow ++ context := by
  induction context generalizing ram with
  | nil => simp [orientPushed]
  | cons c cs ih =>
    simp only [orientPushed, List.foldl] at *
    rw [ih]
    simp

/-- C3: after any Orient step the context window holds at most 100 entries;
whenever the pushed window exceeds 100, exactly its oldest `length − 50` keys
are spliced off (leaving the most recent 50) and every spliced key's
embedding is deleted in the same step, so no evicted key retains an
embedding. -/
theorem orientMemory_bounded (gen : Str → Emb) (ram : RAGMemoryState)
    (context : List Str) :
    (orientMemory gen ram context).contextWindow.length ≤ 100 ∧
    (∀ k ∈ evictedKeys gen ram context,
        lookupE (orientMemory gen ram context).embeddings k = none) ∧
    (100 < (ram.contextWindow ++ context).length →
        (orientMemory gen ram context).contextWindow =
          (ram.contextWindow ++ context).drop
            ((ram.contextWindow ++ context).length - 50)) := by
  have hw := orientPushed_contextWindow gen ram context
  refine ⟨?_, ?_, ?_⟩
  · by_cases h : 100 < (orientPushed gen ram context).contextWindow.length
    · simp only [orientMemory, h, if_true, List.length_drop]
      omega
    · simp only [orientMemory, h, if_false]
      omega
  · intro k hk
    simp only [evictedKeys] at hk
    by_cases h : 100 < (orientPushed gen ram context).contextWindow.length
    · simp only [h, if_true] at hk
      simp only [orientMemory, h, if_true]
      exact lookupE_foldl_delEntry_mem _ _ _ hk
    · simp only [h, if_false] at hk
      cases hk
  · intro h
    simp only [orientMemory, hw, h, if_true]

set_option maxRecDepth 8000 in
/-- Witness for `orientMemory_bounded` instantiated at an Orient step that
inserts 120 distinct context strings into an empty store: the window keeps the
last 50, and the first evicted key has no embedding left. -/
theorem orientMemory_bounded_witness :
    (orientMemory (fun _ => [1])
        { embeddings := [], contextWindow := [], semanticGraph := [],
          retrievalThreshold := mkRat 7 10 }
        ((List.range 120).map natToStr)).contextWindow.length ≤ 100 ∧
    lookupE (orientMemory (fun _ => [1])
        { embeddings := [], contextWindow := [], semanticGraph := [],
          retrievalThreshold := mkRat 7 10 }
        ((List.range 120).map natToStr)).embeddings (natToStr 0) = none := by
  refine ⟨(orientMemory_bounded _ _ _).1, (orientMemory_bounded _ _ _).2.1 _ ?_⟩
  decide

/-! ## Claim C6: the retrieval contract -/

theorem mem_insertDesc {x a : RAGResult} {l : List RAGResult} :
    x ∈ insertDesc a l ↔ x = a ∨ x ∈ l := by
  induction l with
  | nil => simp [insertDesc]
  | cons b bs ih =>
    by_cases h : b.relevance ≤ a.relevance
    · simp [insertDesc, h]
    · simp [insertDesc, h, ih]
      tauto

theorem mem_sortDesc {x : RAGResult} {l : List RAGResult} :
    x ∈ sortDesc l ↔ x ∈ l := by
  induction l with
  | nil => simp [sortDesc]
  | cons a as ih => simp [sortDesc, mem_insertDesc, ih]

theorem pairwise_insertDesc {a : RAGResult} {l : List RAGResult}
    (h : l.Pairwise (fun x y => y.relevance ≤ x.relevance)) :
    (insertDesc a l).Pairwise (fun x y => y.relevance ≤ x.relevance) := by
  induction l with
  | nil => simp [insertDesc]
  | cons b bs ih =>
    rcases List.pairwise_cons.mp h with ⟨hb, hbs⟩
    by_cases hba : b.relevance ≤ a.relevance
    · rw [insertDesc, if_pos hba]
      exact List.pairwise_cons.mpr
        ⟨fun y hy => by
          rcases List.mem_cons.mp hy with rfl | hy'
          · exact hba
          · exact le_trans (hb y hy') hba, h⟩
    · rw [insertDesc, if_neg hba]
      exact List.pairwise_cons.mpr
        ⟨fun y hy => by
          rcases mem_insertDesc.mp hy with rfl | hy'
          · exact le_of_not_le hba
          · exact hb y hy', ih hbs⟩

theorem pairwise_sortDesc (l : List RAGResult) :
    (sortDesc l).Pairwise (fun x y => y.relevance ≤ x.relevance) := by
  induction l with
  | nil => simp [sortDesc]
  | cons a as ih => exact pairwise_insertDesc ih

/-- The filtering loop of `retrieveFromRAG` written as a `filterMap`. -/
theorem retrieve_foldl_eq_filterMap (sq : SqrtOracle) (q : Emb) (t : ℚ)
    (l : List (Str × Emb)) (acc : List RAGResult) :
    l.foldl
      (fun acc p =>
        match cosineSimilarity sq q p.2 with
        | some s =>
          if t < s then
            acc ++ [{ content := p.1, relevance := s, source := getEmbeddingSource p.1 }]
          else acc
        | none => acc)
      acc =
    acc ++ l.filterMap
      (fun p =>
        match cosineSimilarity sq q p.2 with
        | some s =>
          if t < s then
            some { content := p.1, relevance := s, source := getEmbeddingSource p.1 }
          else none
        | none => none) := by
  induction l generalizing acc with
  | nil => simp
  | cons p ps ih =>
    simp only [List.foldl_cons, List.filterMap_cons]
    cases hcs : cosineSimilarity sq q p.2 with
    | none => simp [ih]
    | some s =>
      by_cases hts : t < s
      · simp [hts, ih]
      · simp [hts, ih]

/-- Every entry surviving the filter has relevance strictly above the
threshold. -/
theorem retrieve_filter_relevance (sq : SqrtOracle) (q : Emb) (t : ℚ)
    (l : List (Str × Emb)) (r : RAGResult)
    (hr : r ∈ l.filterMap
      (fun p =>
        match cosineSimilarity sq q p.2 with
        | some s =>
          if t < s then
            some { content := p.1, relevance := s, source := getEmbeddingSource p.1 }
          else none
        | none => none)) :
    t < r.relevance := by
  rcases List.mem_filterMap.mp hr with ⟨p, _, hp⟩
  cases hcs : cosineSimilarity sq q p.2 with
  | none => rw [hcs] at hp; cases hp
  | some s =>
    rw [hcs] at hp
    dsimp only at hp
    by_cases hts : t < s
    · rw [if_pos hts] at hp
      cases hp
      exact hts
    · rw [if_neg hts] at hp; cases hp

/-- C6: `retrieveFromRAG` returns at most `maxResults` entries, every returned
entry's relevance strictly exceeds the configured `retrievalThreshold`, and
the returned list is sorted by descending relevance. -/
theorem retrieveFromRAG_spec (sq : SqrtOracle) (env : JsEnv)
    (ram : RAGMemoryState) (query : Str) (maxResults : ℕ) :
    (retrieveFromRAG sq env ram query maxResults).1.length ≤ maxResults ∧
    (∀ r ∈ (retrieveFromRAG sq env ram query maxResults).1,
        ram.retrievalThreshold < r.relevance) ∧
    (retrieveFromRAG sq env ram query maxResults).1.Pairwise
      (fun x y => y.relevance ≤ x.relevance) := by
  dsimp only [retrieveFromRAG]
  rw [retrieve_foldl_eq_filterMap]
  simp only [List.nil_append]
  refine ⟨List.length_take_le _ _, ?_, ?_⟩
  · intro r hr
    have hmem := mem_sortDesc.mp (List.mem_of_mem_take hr)
    exact retrieve_filter_relevance sq (env.gen query) ram.retrievalThreshold _ r hmem
  · exact (pairwise_sortDesc _).sublist (List.take_sublist _ _)

/-- Witness for `retrieveFromRAG_spec` on a two-entry store: one entry above
threshold, one below, `maxResults = 5`. -/
theorem retrieveFromRAG_spec_witness :
    (retrieveFromRAG sqrtStub { gen := fun _ => [1], now := 0, rand := [] }
        { embeddings := [("a".data, [1]), ("b".data, [0])],
          contextWindow := [], semanticGraph := [],
          retrievalThreshold := mkRat 7 10 }
        "q".data 5).1.length ≤ 5 ∧
    (∀ r ∈ (retrieveFromRAG sqrtStub { gen := fun _ => [1], now := 0, rand := [] }
        { embeddings := [("a".data, [1]), ("b".data, [0])],
          contextWindow := [], semanticGraph := [],
          retrievalThreshold := mkRat 7 10 }
        "q".data 5).1, mkRat 7 10 < r.relevance) :=
  ⟨(retrieveFromRAG_spec sqrtStub _ _ _ _).1,
   (retrieveFromRAG_spec sqrtStub _ _ _ _).2.1⟩

/-! ## Claim C4: zero-vector cosine similarity -/

theorem sum_sq_nonneg (l : List ℚ) : 0 ≤ (l.map (fun x => x * x)).sum := by
  induction l with
  | nil => simp
  | cons x xs ih =>
    simp only [List.map_cons, List.sum_cons]
    have := mul_self_nonneg x
    linarith

theorem sum_sq_eq_zero {l : List ℚ} (h : (l.map (fun x => x * x)).sum = 0) :
    ∀ x ∈ l, x = 0 := by
  induction l with
  | nil => simp
  | cons y ys ih =>
    simp only [List.map_cons, List.sum_cons] at h
    have hy := mul_self_nonneg y
    have hys := sum_sq_nonneg ys
    have hy0 : y * y = 0 := by linarith
    have hys0 : (ys.map (fun x => x * x)).sum = 0 := by linarith
    intro x hx
    rcases List.mem_cons.mp hx with rfl | hx'
    · exact mul_self_eq_zero.mp hy0
    · exact ih hys0 x hx'

theorem zip_dot_zero_left {a b : Emb} (h : ∀ x ∈ a, x = 0) :
    ((a.zip b).map (fun p => p.1 * p.2)).sum = 0 := by
  induction a generalizing b with
  | nil => simp
  | cons x xs ih =>
    cases b with
    | nil => simp
    | cons y ys =>
      simp only [List.zip_cons_cons, List.map_cons, List.sum_cons]
      rw [h x (List.mem_cons_self x xs), zero_mul, zero_add]
      exact ih (fun z hz => h z (List.mem_cons_of_mem x hz))

theorem zip_dot_zero_right {a b : Emb} (h : ∀ x ∈ b.take a.length, x = 0) :
    ((a.zip b).map (fun p => p.1 * p.2)).sum = 0 := by
  induction a generalizing b with
  | nil => simp
  | cons x xs ih =>
    cases b with
    | nil => simp
    | cons y ys =>
      simp only [List.length_cons, List.take_succ_cons] at h
      simp only [List.zip_cons_cons, List.map_cons, List.sum_cons]
      rw [h y (List.mem_cons_self y _), mul_zero, zero_add]
      exact ih (fun z hz => h z (List.mem_cons_of_mem y hz))

/-- Faithfulness of the `NaN` modelling: whenever the denominator
`sqrt(normA) * sqrt(normB)` vanishes, so does the dot product — the JS
division is `0 / 0 = NaN`, never `±Infinity`. -/
theorem cosineSimilarity_denom_zero (sq : SqrtOracle) (a b : Emb)
    (hd : sq.f ((a.map (fun x => x * x)).sum)
        * sq.f (((b.take a.length).map (fun x => x * x)).sum) = 0) :
    ((a.zip b).map (fun p => p.1 * p.2)).sum = 0 := by
  rcases mul_eq_zero.mp hd with h | h
  · have h0 := (sq.zero_iff _ (sum_sq_nonneg a)).mp h
    exact zip_dot_zero_left (sum_sq_eq_zero h0)
  · have h0 := (sq.zero_iff _ (sum_sq_nonneg (b.take a.length))).mp h
    exact zip_dot_zero_right (sum_sq_eq_zero h0)

/-- C4 (code divergence, zero-vector guard missing): `cosineSimilarity` has
no divide-by-zero guard, so for a zero query vector against the stored
embedding `[3, 4]` the computation is `0 / (sqrt 0 * sqrt 25) = 0 / 0`,
JavaScript `NaN` (`none`) — not the similarity `0` the claim requires.  This
holds for every admissible square-root oracle.  (`NaN > threshold` is `false`,
so such an entry is still never returned by `retrieveFromRAG`.) -/
theorem cosineSimilarity_zero_vector_nan (sq : SqrtOracle) :
    cosineSimilarity sq [0, 0] [3, 4] = none := by
  have hf0 : sq.f 0 = 0 := (sq.zero_iff 0 le_rfl).mpr rfl
  norm_num [cosineSimilarity, hf0]

/-- The claim's consequence stands despite the `NaN`: a zero-vector entry is
never returned at any threshold, because the `none` similarity fails the
strict comparison inside `retrieveFromRAG`'s filter. -/
theorem retrieveFromRAG_drops_zero_vector (sq : SqrtOracle) (env : JsEnv)
    (threshold : ℚ) (maxResults : ℕ) :
    (retrieveFromRAG sq env
        { embeddings := [("z".data, [0, 0])], contextWindow := [],
          semanticGraph := [], retrievalThreshold := threshold }
        "q".data maxResults).1 =
      (fun l => (sortDesc l).take maxResults)
        ((match cosineSimilarity sq (env.gen "q".data) [0, 0] with
          | some s =>
              if threshold < s then
                [{ content := "z".data, relevance := s,
                   source := getEmbeddingSource "z".data }]
              else []
          | none => [])) := by
  dsimp only [retrieveFromRAG]
  cases hcs : cosineSimilarity sq (env.gen "q".data) [0, 0] with
  | none => simp [hcs]
  | some s =>
    by_cases h : threshold < s
    · simp [hcs, h]
    · simp [hcs, h]

/-! ## Claim C7: remount is fresh and non-destructive -/

theorem natToStr_length_pos (n : ℕ) : 0 < (natToStr n).length := by
  unfold natToStr natToStrAux
  split <;> simp

theorem lookupE_append {β : Type} (m l : List (Str × β)) (q : Str) :
    lookupE (m ++ l) q =
      match lookupE m q with
      | some v => some v
      | none => lookupE l q := by
  induction m with
  | nil => simp [lookupE]
  | cons p ps ih =>
    by_cases hpq : p.1 = q
    · simp [lookupE, hpq]
    · simp [lookupE, hpq, ih]

theorem lookupE_map_set {β : Type} (m : List (Str × β)) (k : Str) (v : β)
    (q : Str) (h : q ≠ k) :
    lookupE (m.map (fun p => if p.1 = k then (k, v) else p)) q = lookupE m q := by
  induction m with
  | nil => rfl
  | cons p ps ih =>
    by_cases hpk : p.1 = k
    · have hkq : ¬ ((k, v).1 = q) := fun hh => h hh.symm
      have hpq : ¬ (p.1 = q) := fun hh => h (by rw [← hh, hpk])
      calc lookupE ((p :: ps).map (fun p => if p.1 = k then (k, v) else p)) q
          = lookupE ((k, v) :: ps.map (fun p => if p.1 = k then (k, v) else p)) q := by
            rw [List.map_cons, if_pos hpk]
        _ = lookupE (ps.map (fun p => if p.1 = k then (k, v) else p)) q := by
            simp only [lookupE]
            rw [if_neg hkq]
        _ = lookupE ps q := ih
        _ = lookupE (p :: ps) q := by
            simp only [lookupE]
            rw [if_neg hpq]
    · rw [List.map_cons, if_neg hpk]
      simp only [lookupE]
      rw [ih]

theorem lookupE_setEntry_ne {β : Type} (m : List (Str × β)) (k : Str) (v : β)
    (q : Str) (h : q ≠ k) :
    lookupE (setEntry m k v) q = lookupE m q := by
  unfold setEntry
  split
  · exact lookupE_map_set m k v q h
  · rw [lookupE_append]
    have hkq : ¬ (k = q) := fun hh => h hh.symm
    have hnil : lookupE [(k, v)] q = none := by
      simp only [lookupE]
      rw [if_neg hkq]
    rw [hnil]
    cases lookupE m q <;> rfl

/-- C7: a successful `remount` returns a tensor with the source's shape
carried over unchanged and a fresh id (the new id strictly extends the old
one), and the only mount-table entry it touches is the one at the new path —
every other path, in particular the source tensor's own mount, is unchanged.
The source `Tensor` value itself is immutable here; in the source,
`reinterpretTensor` always writes a freshly allocated buffer (or a `.slice()`
copy in the same-dtype case) and never writes through
`originalTensor.data`. -/
theorem remount_spec (now : ℕ) (fs : FieldState) (t : Tensor) (p : Str)
    (t' : Tensor) (fs' : FieldState)
    (h : remount now fs t p = .ok (t', fs')) :
    t'.shape = t.shape ∧ t'.id ≠ t.id ∧
    ∀ q, q ≠ p → lookupE fs'.mountedTensors q = lookupE fs.mountedTensors q := by
  unfold remount at h
  cases hp : parsePath p with
  | error e => rw [hp] at h; cases h
  | ok newIntent =>
    rw [hp] at h
    dsimp only at h
    injection h with h'
    injection h' with ht hfs
    refine ⟨?_, ?_, ?_⟩
    · rw [← ht]; rfl
    · rw [← ht]
      intro heq
      have hlen := congrArg List.length heq
      simp only [reinterpretTensor, List.length_append] at hlen
      have := natToStr_length_pos now
      omega
    · intro q hq
      rw [← hfs]
      exact lookupE_setEntry_ne _ _ _ _ hq

/-- Witness for `remount_spec`: remounting a one-element `uint8` tensor
mounted nowhere onto the path `/a/b` (16-bit dynamic view). -/
theorem remount_spec_witness :
    ({ id := "reinterpreted_t_0".data, data := .u16 [0], shape := [1],
       architecture := ⟨.transformer, 7, 32768, .memory⟩,
       quantization := ⟨16, .dynamic, true⟩ } : Tensor).shape =
        ({ id := "t".data, data := .u8 [0], shape := [1],
           architecture := ⟨.cnn, 2, 1, .speed⟩,
           quantization := ⟨8, .linear, false⟩ } : Tensor).shape ∧
    ({ id := "reinterpreted_t_0".data, data := .u16 [0], shape := [1],
       architecture := ⟨.transformer, 7, 32768, .memory⟩,
       quantization := ⟨16, .dynamic, true⟩ } : Tensor).id ≠
        ({ id := "t".data, data := .u8 [0], shape := [1],
           architecture := ⟨.cnn, 2, 1, .speed⟩,
           quantization := ⟨8, .linear, false⟩ } : Tensor).id ∧
    ∀ q, q ≠ "/a/b".data →
      lookupE (FieldState.mk
        [("/a/b".data,
          { id := "reinterpreted_t_0".data, data := .u16 [0], shape := [1],
            architecture := ⟨.transformer, 7, 32768, .memory⟩,
            quantization := ⟨16, .dynamic, true⟩ })]).mountedTensors q =
      lookupE (FieldState.mk []).mountedTensors q :=
  remount_spec 0 (FieldState.mk [])
    { id := "t".data, data := .u8 [0], shape := [1],
      architecture := ⟨.cnn, 2, 1, .speed⟩,
      quantization := ⟨8, .linear, false⟩ }
    "/a/b".data
    { id := "reinterpreted_t_0".data, data := .u16 [0], shape := [1],
      architecture := ⟨.transformer, 7, 32768, .memory⟩,
      quantization := ⟨16, .dynamic, true⟩ }
    (FieldState.mk
      [("/a/b".data,
        { id := "reinterpreted_t_0".data, data := .u16 [0], shape := [1],
          architecture := ⟨.transformer, 7, 32768, .memory⟩,
          quantization := ⟨16, .dynamic, true⟩ })])
    (by rfl)

/-! ## Claim C8: the spawn decision -/

/-- C8: the Decide phase spawns iff `boltIntegration` is on, the task is
`creation` or the domain is `development`, and complexity exceeds 6; when it
does, exactly one spawn request is built and its `recursionLevel` is `0`. -/
theorem decideResponseStrategy_spec (traits : PersonaTraits) (ci : CognitiveIntent) :
    ((decideResponseStrategy traits ci).shouldSpawnRepo = true ↔
      (traits.boltIntegration = true ∧
        (ci.task = "creation".data ∨ ci.domain = "development".data) ∧
        6 < ci.complexity)) ∧
    ((decideResponseStrategy traits ci).spawnRequests.length =
      if traits.boltIntegration = true ∧
          (ci.task = "creation".data ∨ ci.domain = "development".data) ∧
          6 < ci.complexity then 1 else 0) ∧
    (∀ r ∈ (decideResponseStrategy traits ci).spawnRequests, r.recursionLevel = 0) := by
  by_cases h : traits.boltIntegration = true ∧
      (ci.task = "creation".data ∨ ci.domain = "development".data) ∧
      6 < ci.complexity
  · rw [decideResponseStrategy, if_pos h]
    refine ⟨by simpa using h, by rw [if_pos h]; rfl, ?_⟩
    intro r hr
    rcases List.mem_singleton.mp hr with rfl
    rfl
  · rw [decideResponseStrategy, if_neg h]
    exact ⟨by simpa using h, by rw [if_neg h]; rfl, fun r hr => absurd hr (by simp)⟩

/-- Witness for `decideResponseStrategy_spec` at a spawning intent
(`boltIntegration` on, development domain, complexity 7). -/
theorem decideResponseStrategy_spec_witness :
    (decideResponseStrategy
        { creativity := mkRat 8 10, precision := mkRat 9 10, recursionDepth := 3,
          adaptationRate := mkRat 1 10, boltIntegration := true }
        { domain := "development".data, task := "creation".data,
          precision := .medium, realtime := false, complexity := 7 }).shouldSpawnRepo
      = true ∧
    ∀ r ∈ (decideResponseStrategy
        { creativity := mkRat 8 10, precision := mkRat 9 10, recursionDepth := 3,
          adaptationRate := mkRat 1 10, boltIntegration := true }
        { domain := "development".data, task := "creation".data,
          precision := .medium, realtime := false, complexity := 7 }).spawnRequests,
      r.recursionLevel = 0 :=
  ⟨((decideResponseStrategy_spec _ _).1).mpr (by decide),
   (decideResponseStrategy_spec _ _).2.2⟩

/-! ## Claim C5: float32 → uint8 → float32 roundtrip -/

theorem mkRat_half : (mkRat 1 2 : ℚ) = 1 / 2 := by
  rw [Rat.mkRat_eq_div]; norm_num

theorem mkRat_inv255 : (mkRat 1 255 : ℚ) = 1 / 255 := by
  rw [Rat.mkRat_eq_div]; norm_num

/-- `Math.round` is within `1/2` of its argument. -/
theorem jsRound_close (q : ℚ) :
    (jsRound q : ℚ) - q ≤ 1 / 2 ∧ q - (jsRound q : ℚ) ≤ 1 / 2 := by
  unfold jsRound
  rw [mkRat_half]
  constructor
  · have := Int.floor_le (q + 1 / 2)
    linarith
  · have := Int.lt_floor_add_one (q + 1 / 2)
    linarith

/-- For `x ∈ [0, 1]`, `Math.round(x * 255)` lands in `[0, 255]` (no wrap). -/
theorem jsRound_mem_range (x : ℚ) (h0 : 0 ≤ x) (h1 : x ≤ 1) :
    0 ≤ jsRound (x * 255) ∧ jsRound (x * 255) ≤ 255 := by
  unfold jsRound
  rw [mkRat_half]
  constructor
  · rw [Int.le_floor]
    push_cast
    nlinarith
  · have h : x * 255 + 1 / 2 < ((256 : ℤ) : ℚ) := by push_cast; nlinarith
    have := Int.floor_lt.mpr h
    omega

/-- Per-element roundtrip error of float32 → uint8 → float32 for `x ∈ [0,1]`. -/
theorem roundtrip_elem (x : ℚ) (h0 : 0 ≤ x) (h1 : x ≤ 1) :
    x - Rat.div (((jsRound (x * 255)).emod 256 : ℤ) : ℚ) 255 ≤ mkRat 1 255 ∧
    Rat.div (((jsRound (x * 255)).emod 256 : ℤ) : ℚ) 255 - x ≤ mkRat 1 255 := by
  obtain ⟨hlo, hhi⟩ := jsRound_mem_range x h0 h1
  have hmod : (jsRound (x * 255)).emod 256 = jsRound (x * 255) :=
    Int.emod_eq_of_lt hlo (by omega)
  rw [hmod]
  have hdiv : Rat.div ((jsRound (x * 255) : ℤ) : ℚ) 255 =
      ((jsRound (x * 255) : ℤ) : ℚ) / 255 := rfl
  obtain ⟨ha, hb⟩ := jsRound_close (x * 255)
  rw [hdiv, mkRat_inv255]
  constructor <;> linarith

/-- The float32 → uint8 arm of `reinterpretTensor` (target bits 8, source
dtype float32): `Math.round(x * 255)` stored with the `Uint8Array` wrap. -/
theorem reinterpretTensor_f32_to_u8 (now : ℕ) (t : Tensor) (xs : List ℚ)
    (arch : Architecture) (q : QuantizationStrategy)
    (hdata : t.data = .f32 xs) (hb : q.bits = 8) :
    (reinterpretTensor now t arch q).data
      = .u8 (xs.map (fun x => (jsRound (x * 255)).emod 256)) := by
  simp [reinterpretTensor, hdata, hb, TData.isF32, TData.isU8, TData.isU16]

/-- The uint8 → float32 arm of `reinterpretTensor` (target bits 32, source
dtype uint8): divide by the source maximum 255. -/
theorem reinterpretTensor_u8_to_f32 (now : ℕ) (t : Tensor) (zs : List ℤ)
    (arch : Architecture) (q : QuantizationStrategy)
    (hdata : t.data = .u8 zs) (hb : q.bits = 32) :
    (reinterpretTensor now t arch q).data
      = .f32 (zs.map (fun v => Rat.div (Int.cast v) 255)) := by
  simp [reinterpretTensor, hdata, hb, TData.isF32, TData.isU8, TData.isU16]

/-- C5 (amended): for a float32 tensor all of whose elements lie in `[0, 1]`,
reinterpreting to any 8-bit configuration and back to any 32-bit configuration
reproduces every element within `1/255` absolute error.  (Outside `[0, 1]` the
uint8 store wraps modulo 256 and the bound fails, see the counterexample.) -/
theorem reinterpretTensor_f32_u8_f32_roundtrip
    (t : Tensor) (xs : List ℚ) (arch8 arch32 : Architecture)
    (q8 q32 : QuantizationStrategy) (now1 now2 : ℕ)
    (hdata : t.data = .f32 xs)
    (hrange : ∀ x ∈ xs, 0 ≤ x ∧ x ≤ 1)
    (hb8 : q8.bits = 8) (hb32 : q32.bits = 32) :
    ∃ ys,
      (reinterpretTensor now2 (reinterpretTensor now1 t arch8 q8) arch32 q32).data
          = .f32 ys ∧
      List.Forall₂ (fun y x => x - y ≤ mkRat 1 255 ∧ y - x ≤ mkRat 1 255) ys xs := by
  have h1 := reinterpretTensor_f32_to_u8 now1 t xs arch8 q8 hdata hb8
  have h2 := reinterpretTensor_u8_to_f32 now2 (reinterpretTensor now1 t arch8 q8)
    (xs.map (fun x => (jsRound (x * 255)).emod 256)) arch32 q32 h1 hb32
  refine ⟨_, h2, ?_⟩
  rw [List.map_map]
  rw [List.forall₂_map_left_iff, List.forall₂_same]
  intro x hx
  exact roundtrip_elem x (hrange x hx).1 (hrange x hx).2

set_option maxRecDepth 10000 in
/-- Counterexample to C5 as stated ("for every float32 tensor"): the element
`2` is stored as `Math.round(2·255) = 510`, which wraps to `254` in the
`Uint8Array`, and comes back as `254/255`; the roundtrip error is `256/255`,
far above `1/255`. -/
theorem reinterpretTensor_roundtrip_counterexample :
    (reinterpretTensor 1
        (reinterpretTensor 0
          { id := "t".data, data := .f32 [2], shape := [1],
            architecture := ⟨.cnn, 2, 1, .speed⟩,
            quantization := ⟨32, .adaptive, true⟩ }
          ⟨.cnn, 2, 1, .speed⟩ ⟨8, .linear, false⟩)
        ⟨.cnn, 2, 1, .speed⟩ ⟨32, .adaptive, true⟩).data
      = .f32 [Rat.div 254 255] ∧
    ¬ ((2 : ℚ) - Rat.div 254 255 ≤ mkRat 1 255) := by
  constructor
  · with_unfolding_all decide
  · have h : Rat.div (254 : ℚ) 255 = 254 / 255 := rfl
    rw [h, mkRat_inv255]
    norm_num

/-- Witness for `reinterpretTensor_f32_u8_f32_roundtrip` on the buffer
`[1/2, 0, 1]`. -/
theorem reinterpretTensor_f32_u8_f32_roundtrip_witness :
    ∃ ys,
      (reinterpretTensor 1
          (reinterpretTensor 0
            { id := "t".data, data := .f32 [mkRat 1 2, 0, 1], shape := [1, 3],
              architecture := ⟨.cnn, 2, 1, .speed⟩,
              quantization := ⟨32, .adaptive, true⟩ }
            ⟨.cnn, 2, 1, .speed⟩ ⟨8, .linear, false⟩)
          ⟨.cnn, 2, 1, .speed⟩ ⟨32, .adaptive, true⟩).data
        = .f32 ys ∧
      List.Forall₂ (fun y x => x - y ≤ mkRat 1 255 ∧ y - x ≤ mkRat 1 255) ys
        [mkRat 1 2, 0, 1] :=
  reinterpretTensor_f32_u8_f32_roundtrip
    { id := "t".data, data := .f32 [mkRat 1 2, 0, 1], shape := [1, 3],
      architecture := ⟨.cnn, 2, 1, .speed⟩,
      quantization := ⟨32, .adaptive, true⟩ }
    [mkRat 1 2, 0, 1] ⟨.cnn, 2, 1, .speed⟩ ⟨.cnn, 2, 1, .speed⟩
    ⟨8, .linear, false⟩ ⟨32, .adaptive, true⟩ 0 1
    rfl (by with_unfolding_all decide) rfl rfl

/-! ## Claim C9: adaptationRate across processIntent -/

theorem spawnRepository_traits (env : JsEnv) (σ : AgentState)
    (req : RepoSpawnRequest) :
    (spawnRepository env σ req).2.traits = σ.traits := by
  unfold spawnRepository
  split <;> rfl

theorem spawnAll_traits (env : JsEnv) (l : List RepoSpawnRequest)
    (σ : AgentState) (resp₀ resp : Str) (σ' : AgentState)
    (h : spawnAll env σ resp₀ l = .ok (resp, σ')) : σ'.traits = σ.traits := by
  induction l generalizing σ resp₀ with
  | nil =>
    unfold spawnAll at h
    injection h with h'
    injection h' with _ h2
    rw [← h2]
  | cons r rs ih =>
    unfold spawnAll at h
    cases hsp : spawnRepository env σ r with
    | mk out σ1 =>
      rw [hsp] at h
      cases out with
      | error e => cases h
      | ok repoId =>
        have := ih σ1 _ h
        rw [this]
        have hkeep := spawnRepository_traits env σ r
        rw [hsp] at hkeep
        exact hkeep

theorem executeDecision_traits (env : JsEnv) (σ : AgentState) (d : Decision)
    (resp : Str) (σ' : AgentState)
    (h : executeDecision env σ d = .ok (resp, σ')) : σ'.traits = σ.traits := by
  unfold executeDecision at h
  split at h
  · cases hsp : spawnAll env σ [] d.spawnRequests with
    | error e => rw [hsp] at h; cases h
    | ok pr =>
      rw [hsp] at h
      injection h with h'
      injection h' with _ h2
      rw [← h2]
      exact spawnAll_traits env d.spawnRequests σ [] pr.1 pr.2 (by rw [hsp])
  · injection h with h'
    injection h' with _ h2
    rw [← h2]

/-- C9 (amended): every *completed* `processIntent` call multiplies
`traits.adaptationRate` by exactly 1.1 (the constant success metric 0.85
always selects the 1.1 branch of `adaptSelfModel`), so the rate strictly
increases whenever it is positive — with a positive initial rate it grows
without bound across repeated calls, and no other operation (in particular
`evolveTraits`, which clamps only `creativity`/`precision` at 1) ever
decreases or clamps it.  Strict growth needs positivity: from rate `0` the
call returns rate `0` (see the counterexample). -/
theorem processIntent_adaptationRate (env : JsEnv) (σ : AgentState)
    (intent : Str) (context : List Str) (resp : Str) (σ' : AgentState)
    (h : processIntent env σ intent context = .ok (resp, σ')) :
    σ'.traits.adaptationRate = σ.traits.adaptationRate * mkRat 11 10 ∧
    (0 < σ.traits.adaptationRate →
      σ.traits.adaptationRate < σ'.traits.adaptationRate) ∧
    (∀ perf t, (evolveTraits perf t).adaptationRate = t.adaptationRate) := by
  have hmk : (mkRat 11 10 : ℚ) = 11 / 10 := by rw [Rat.mkRat_eq_div]; norm_num
  unfold processIntent at h
  dsimp only at h
  cases hex : executeDecision env (orientAgent env σ context)
      (decideResponseStrategy (orientAgent env σ context).traits
        (parseIntentToCognitive intent)) with
  | error e => rw [hex] at h; cases h
  | ok pr =>
    rw [hex] at h
    injection h with h'
    injection h' with _ h2
    have htr : pr.2.traits = σ.traits := by
      have := executeDecision_traits env (orientAgent env σ context) _ pr.1 pr.2
        (by rw [hex])
      rw [this]
      rfl
    have hrate : σ'.traits.adaptationRate =
        σ.traits.adaptationRate * mkRat 11 10 := by
      rw [← h2]
      unfold adaptSelfModel
      rw [if_pos (by decide)]
      simp only [htr]
    refine ⟨hrate, ?_, ?_⟩
    · intro hpos
      rw [hrate, hmk]
      nlinarith
    · intro perf t
      unfold evolveTraits
      split <;> split <;> rfl

set_option maxRecDepth 20000 in
/-- Witness for `processIntent_adaptationRate`: a completed direct-response
call from rate 1 ends at rate 11/10. -/
theorem processIntent_adaptationRate_witness :
    c9Final.traits.adaptationRate = c9Start.traits.adaptationRate * mkRat 11 10 ∧
    (0 < c9Start.traits.adaptationRate →
      c9Start.traits.adaptationRate < c9Final.traits.adaptationRate) ∧
    (∀ perf t, (evolveTraits perf t).adaptationRate = t.adaptationRate) :=
  processIntent_adaptationRate c9Env c9Start "hi".data [] c9Resp c9Final
    (by with_unfolding_all rfl)

set_option maxRecDepth 20000 in
/-- Counterexample to C9 as stated: a `processIntent` call that completes from
`adaptationRate = 0` returns with `adaptationRate = 0 · 1.1 = 0` — the rate
did not strictly increase. -/
theorem processIntent_rate_not_increasing_counterexample :
    processIntent c9Env c9ZeroStart "hi".data [] = .ok (c9Resp, c9ZeroFinal) ∧
    ¬ (c9ZeroStart.traits.adaptationRate < c9ZeroFinal.traits.adaptationRate) := by
  constructor
  · with_unfolding_all rfl
  · with_unfolding_all decide

/-! ## Claim C10: only evicted window keys lose their embeddings -/

theorem lookupE_none_of_not_any {β : Type} (m : List (Str × β)) (k : Str)
    (h : m.any (fun p => decide (p.1 = k)) = false) : lookupE m k = none := by
  induction m with
  | nil => rfl
  | cons p ps ih =>
    rw [List.any_cons, Bool.or_eq_false_iff] at h
    have hp : ¬ (p.1 = k) := decide_eq_false_iff_not.mp h.1
    simp only [lookupE, if_neg hp]
    exact ih h.2

theorem lookupE_map_set_self {β : Type} (m : List (Str × β)) (k : Str) (v : β)
    (h : m.any (fun p => decide (p.1 = k)) = true) :
    lookupE (m.map (fun p => if p.1 = k then (k, v) else p)) k = some v := by
  induction m with
  | nil => cases h
  | cons p ps ih =>
    by_cases hpk : p.1 = k
    · simp [List.map_cons, if_pos hpk, lookupE]
    · have h' : ps.any (fun p => decide (p.1 = k)) = true := by
        rw [List.any_cons] at h
        rcases Bool.or_eq_true_iff.mp h with hh | hh
        · exact absurd (of_decide_eq_true hh) hpk
        · exact hh
      simp only [List.map_cons, if_neg hpk, lookupE, if_neg hpk]
      exact ih h'

theorem lookupE_setEntry_self {β : Type} (m : List (Str × β)) (k : Str) (v : β) :
    lookupE (setEntry m k v) k = some v := by
  unfold setEntry
  split
  · exact lookupE_map_set_self m k v ‹_›
  · rw [lookupE_append, lookupE_none_of_not_any m k (Bool.eq_false_iff.mpr ‹_›)]
    simp [lookupE]

theorem lookupE_setEntry_isSome {β : Type} (m : List (Str × β)) (k : Str)
    (v : β) (q : Str) (h : (lookupE m q).isSome = true) :
    (lookupE (setEntry m k v) q).isSome = true := by
  by_cases hqk : q = k
  · subst hqk
    rw [lookupE_setEntry_self]
    rfl
  · rw [lookupE_setEntry_ne m k v q hqk]
    exact h

/-- The insertion loop leaves embeddings of keys outside the inserted context
untouched. -/
theorem orientPushed_lookup_ne (gen : Str → Emb) (ram : RAGMemoryState)
    (context : List Str) (k : Str) (hk : k ∉ context) :
    lookupE (orientPushed gen ram context).embeddings k =
      lookupE ram.embeddings k := by
  induction context generalizing ram with
  | nil => rfl
  | cons c cs ih =>
    have hkc : k ≠ c := fun h => hk (h ▸ List.mem_cons_self c cs)
    have hkcs : k ∉ cs := fun h => hk (List.mem_cons_of_mem c h)
    simp only [orientPushed, List.foldl_cons] at *
    rw [ih _ hkcs]
    exact lookupE_setEntry_ne _ _ _ _ hkc

theorem lookupE_foldl_delEntry_not_mem {β : Type} (l : List Str)
    (m : List (Str × β)) (k : Str) (h : k ∉ l) :
    lookupE (l.foldl (fun e j => delEntry e j) m) k = lookupE m k := by
  induction l generalizing m with
  | nil => rfl
  | cons j js ih =>
    have hkj : k ≠ j := fun hh => h (hh ▸ List.mem_cons_self j js)
    have hkjs : k ∉ js := fun hh => h (List.mem_cons_of_mem j hh)
    simp only [List.foldl_cons]
    rw [ih _ hkjs, lookupE_delEntry, if_neg hkj]

/-- C10: (i) an Orient step never touches the embedding of a key outside the
context window and the freshly inserted items; (ii) the evicted keys always
come from the (pushed) context window, so the eviction deletes only
just-evicted window keys; (iii) `spawnRepository` (which stores the
`repo:<id>` and `self-model:spawn:<id>` embeddings via `createRAGExtension`
and `updateSelfModelFromSpawning`) never removes an embedding; and (iv)
`updateRAGMemory` (which stores `execution:<timestamp>` embeddings) never
removes an embedding.  Hence keys that never enter the context window — the
`execution:`/`repo:`/`self-model:spawn:` families, unless a caller passes a
literally identical context string — survive every operation and that portion
of the embeddings map grows monotonically. -/
theorem embeddings_frame_spec :
    (∀ gen ram context k, k ∉ ram.contextWindow → k ∉ context →
        lookupE (orientMemory gen ram context).embeddings k
          = lookupE ram.embeddings k) ∧
    (∀ gen ram context,
        evictedKeys gen ram context ⊆ ram.contextWindow ++ context) ∧
    (∀ env σ req k, (lookupE σ.ragMemory.embeddings k).isSome = true →
        (lookupE (spawnRepository env σ req).2.ragMemory.embeddings k).isSome
          = true) ∧
    (∀ env ram resp k, (lookupE ram.embeddings k).isSome = true →
        (lookupE (updateRAGMemory env ram resp).embeddings k).isSome = true) := by
  refine ⟨?_, ?_, ?_, ?_⟩
  · intro gen ram context k hkw hkc
    have hpush := orientPushed_lookup_ne gen ram context k hkc
    have hwin := orientPushed_contextWindow gen ram context
    unfold orientMemory
    by_cases hlen : 100 < (orientPushed gen ram context).contextWindow.length
    · rw [if_pos hlen]
      dsimp only
      have hev : k ∉ (orientPushed gen ram context).contextWindow.take
          ((orientPushed gen ram context).contextWindow.length - 50) := by
        intro hmem
        have hmem' := List.mem_of_mem_take hmem
        rw [hwin] at hmem'
        rcases List.mem_append.mp hmem' with h | h
        · exact hkw h
        · exact hkc h
      rw [lookupE_foldl_delEntry_not_mem _ _ _ hev]
      exact hpush
    · rw [if_neg hlen]
      exact hpush
  · intro gen ram context k hk
    unfold evictedKeys at hk
    by_cases hlen : 100 < (orientPushed gen ram context).contextWindow.length
    · rw [if_pos hlen] at hk
      have hmem' := List.mem_of_mem_take hk
      rwa [orientPushed_contextWindow] at hmem'
    · rw [if_neg hlen] at hk
      cases hk
  · intro env σ req k h
    unfold spawnRepository
    by_cases hc : σ.traits.recursionDepth ≤ req.recursionLevel
    · rw [if_pos hc]
      exact h
    · rw [if_neg hc]
      dsimp only
      exact lookupE_setEntry_isSome _ _ _ _ (lookupE_setEntry_isSome _ _ _ _ h)
  · intro env ram resp k h
    unfold updateRAGMemory
    by_cases hc : resp.isEmpty = true
    · rw [if_pos hc]
      exact h
    · rw [if_neg hc]
      exact lookupE_setEntry_isSome _ _ _ _ h

/-- Witness for `embeddings_frame_spec`: a `repo:`-keyed embedding survives an
Orient step that inserts a context item, and survives `updateRAGMemory`. -/
theorem embeddings_frame_spec_witness :
    lookupE (orientMemory (fun _ => [1])
        { embeddings := [("repo:r1".data, [1])], contextWindow := [],
          semanticGraph := [], retrievalThreshold := mkRat 7 10 }
        ["c".data]).embeddings "repo:r1".data
      = lookupE [("repo:r1".data, ([1] : Emb))] "repo:r1".data ∧
    (lookupE (updateRAGMemory { gen := fun _ => [1], now := 0, rand := [] }
        { embeddings := [("repo:r1".data, [1])], contextWindow := [],
          semanticGraph := [], retrievalThreshold := mkRat 7 10 }
        "resp".data).embeddings "repo:r1".data).isSome = true :=
  ⟨embeddings_frame_spec.1 (fun _ => [1]) _ ["c".data] "repo:r1".data
      (by decide) (by decide),
   embeddings_frame_spec.2.2.2 _ _ "resp".data "repo:r1".data (by decide)⟩
